import Mathlib

/-!
Verification of the CIFAR-10 training script `examples/cifar.py` (the LeKan
repository). The script is a single linear pipeline: load the CIFAR-10 train
and test sets, build a small KAN-based convolutional network (`LeKan`), train
it for 10 epochs with AdamW and an exponential learning-rate scheduler
(gamma = 0.8), validate after every epoch, save the state dict, reload it into
a fresh `LeKan`, move the reloaded net to CUDA, and evaluate.

The numerical work (forward pass of the KAN layers, cross-entropy, autograd,
AdamW) lives in external libraries; we model those calls as abstract functions
collected in a configuration record `Cfg`, and embed faithfully the control
flow, metric bookkeeping, learning-rate schedule, state-dict round trip and
error propagation that the script itself implements. Scalar values are
modelled as rationals.
-/

namespace LeKanCifar

/-- Scalar values (tensor entries, losses, accuracies) are modelled as ℚ. -/
abbrev Val := ℚ

/-- A single input image, flattened to a list of scalars. -/
abbrev Input := List Val

/-- One labelled sample: image together with its integer class label.  The
data loader yields batches in which the i-th label belongs to the i-th image,
so a batch is a list of such pairs. -/
abbrev Sample := Input × Nat

/-- A mini-batch as produced by the `DataLoader`. -/
abbrev Batch := List Sample

/-- The trainable tensors of the `LeKan` module, one flattened tensor per
named submodule (`conv1`, `conv2`, `fc1`, `fc2`, `fc3`), mirroring the fields
assigned in `LeKan.__init__`. -/
structure LeKanParams where
  conv1 : List Val
  conv2 : List Val
  fc1 : List Val
  fc2 : List Val
  fc3 : List Val
deriving DecidableEq

/-- `net.state_dict()`: the named-tensor dictionary of the model. -/
def state_dict (p : LeKanParams) : List (String × List Val) :=
  [("conv1", p.conv1), ("conv2", p.conv2),
   ("fc1", p.fc1), ("fc2", p.fc2), ("fc3", p.fc3)]

/-- Look a tensor up by name in a state dict, keeping the module's current
tensor when the name is absent. -/
def lookupTensor (sd : List (String × List Val)) (name : String)
    (dflt : List Val) : List Val :=
  match sd.find? (fun kv => kv.1 == name) with
  | some kv => kv.2
  | none => dflt

/-- `net.load_state_dict(sd)`: copy every named tensor of `sd` into the
module. -/
def load_state_dict (net : LeKanParams) (sd : List (String × List Val)) :
    LeKanParams :=
  { conv1 := lookupTensor sd "conv1" net.conv1
    conv2 := lookupTensor sd "conv2" net.conv2
    fc1 := lookupTensor sd "fc1" net.fc1
    fc2 := lookupTensor sd "fc2" net.fc2
    fc3 := lookupTensor sd "fc3" net.fc3 }

/-- `torch.argmax` over a row of logits: index of the first maximal entry
(index 0 on an empty row). -/
def argmax (xs : List Val) : Nat :=
  (xs.enum.foldl
    (fun best cur => if best.2 < cur.2 then cur else best)
    (0, xs.headD 0)).1

/-- The external-library semantics the script calls into, kept abstract:
the model forward pass, the cross-entropy criterion on a batch of logit rows
and labels, autograd (gradient of the batch loss at the current parameters)
and one AdamW update (taking the current learning rate, the gradients, the
parameters and the optimizer moment state). -/
structure Cfg where
  forward : LeKanParams → Input → List Val
  criterion : List (List Val) → List Nat → Val
  grad : LeKanParams → Batch → LeKanParams
  optStep : Val → LeKanParams → LeKanParams → List Val → LeKanParams × List Val

/-- Number of samples whose predicted class (argmax of the forward logits)
matches the label: `(outputs.argmax(dim=1) == labels).sum().item()`. -/
def countCorrect (cfg : Cfg) (p : LeKanParams) (b : Batch) : Nat :=
  (b.filter (fun s => argmax (cfg.forward p s.1) == s.2)).length

/-- `torch.norm(param, 1)`: the L1 norm of one flattened tensor. -/
def l1norm (t : List Val) : Val := (t.map (fun v => |v|)).sum

/-- The `l1_reg` accumulator of the training loop: the sum of the L1 norms of
all trainable parameter tensors. -/
def l1_reg (p : LeKanParams) : Val :=
  l1norm p.conv1 + l1norm p.conv2 + l1norm p.fc1 + l1norm p.fc2 + l1norm p.fc3

/-- The per-batch training loss exactly as line 213 forms it:
`criterion(outputs, labels) + 0 * l1_reg`. -/
def batchLoss (cfg : Cfg) (p : LeKanParams) (b : Batch) : Val :=
  cfg.criterion (b.map (fun s => cfg.forward p s.1)) (b.map (fun s => s.2))
    + 0 * l1_reg p

/-- Observable events of one run, in program order: the training-loop calls
(`optimizer.zero_grad()`, the forward pass, the loss computation,
`loss.backward()`, `optimizer.step()`, the progress-bar display of the running
average loss and running accuracy), the no-grad validation forward passes, the
test-accuracy print, and `scheduler.step()`. -/
inductive Event
  | zeroGrad
  | forward
  | lossComp
  | backward
  | optStep
  | display (avgLoss acc : Val)
  | evalForward
  | printTestAcc (acc : Val)
  | schedStep
deriving DecidableEq

/-- The mutable state threaded through the training loop: the model
parameters, the optimizer moment state, the optimizer's current learning
rate, and the process-local counters `correct`, `total` and `running_loss`. -/
structure LoopState where
  params : LeKanParams
  ostate : List Val
  lr : Val
  correct : Nat
  total : Nat
  running_loss : Val
deriving DecidableEq

/-- The body of the training loop for one batch (lines 195-220): zero the
gradients, run the forward pass, update `correct`/`total` and compute the
running accuracy, form the loss (cross-entropy plus `0 * l1_reg`), run
backward, take one optimizer step, add the loss to `running_loss`, and
display `running_loss / (i + 1)` and the accuracy on the progress bar. -/
def processBatch (cfg : Cfg) (i : Nat) (s : LoopState) (b : Batch) :
    LoopState × List Event :=
  let correct := s.correct + countCorrect cfg s.params b
  let total := s.total + b.length
  let accuracy : Val := (correct : Val) / (total : Val)
  let loss := batchLoss cfg s.params b
  let g := cfg.grad s.params b
  let pu := cfg.optStep s.lr g s.params s.ostate
  let running_loss := s.running_loss + loss
  ({ s with params := pu.1, ostate := pu.2, correct := correct,
            total := total, running_loss := running_loss },
   [Event.zeroGrad, Event.forward, Event.lossComp, Event.backward,
    Event.optStep,
    Event.display (running_loss / ((i : Val) + 1)) accuracy])

/-- The training half of one epoch: iterate `processBatch` over the batches,
with `i` the running batch index of `enumerate(pbar, 0)`. -/
def trainPhase (cfg : Cfg) : Nat → LoopState → List Batch →
    LoopState × List Event
  | _, s, [] => (s, [])
  | i, s, b :: bs =>
    let step := processBatch cfg i s b
    let rest := trainPhase cfg (i + 1) step.1 bs
    (rest.1, step.2 ++ rest.2)

/-- The no-grad accumulation over the test batches inside validation
(lines 229-234): starting from counters `c` and `t`, add each batch's correct
count and size; one `evalForward` event per batch. -/
def evalBatches (cfg : Cfg) (p : LeKanParams) : Nat → Nat → List Batch →
    (Nat × Nat) × List Event
  | c, t, [] => ((c, t), [])
  | c, t, b :: bs =>
    let rest := evalBatches cfg p (c + countCorrect cfg p b) (t + b.length) bs
    (rest.1, Event.evalForward :: rest.2)

/-- The validation section of one epoch (lines 225-236): reset `correct` and
`total` to zero, run the no-grad pass over the test set, and print the test
accuracy `correct / total`. -/
def validationPass (cfg : Cfg) (vb : List Batch) (s : LoopState) :
    LoopState × List Event :=
  let r := evalBatches cfg s.params 0 0 vb
  let acc : Val := (r.1.1 : Val) / (r.1.2 : Val)
  ({ s with correct := r.1.1, total := r.1.2 },
   r.2 ++ [Event.printTestAcc acc])

/-- One iteration of the epoch loop (lines 191-237): set `running_loss = 0.0`,
run the training batches, run validation, then `scheduler.step()` multiplies
the learning rate by gamma = 0.8. -/
def epochStep (cfg : Cfg) (tb vb : List Batch) (s : LoopState) :
    LoopState × List Event :=
  let s0 := { s with running_loss := 0 }
  let tr := trainPhase cfg 0 s0 tb
  let va := validationPass cfg vb tr.1
  ({ va.1 with lr := va.1.lr * (4 / 5) }, tr.2 ++ va.2 ++ [Event.schedStep])

/-- `for epoch in range(k)`: iterate `epochStep` k times, concatenating the
event traces. -/
def runEpochs (cfg : Cfg) (tb vb : List Batch) (s : LoopState) :
    Nat → LoopState × List Event
  | 0 => (s, [])
  | k + 1 =>
    let e := epochStep cfg tb vb s
    let rest := runEpochs cfg tb vb e.1 k
    (rest.1, e.2 ++ rest.2)

/-- The state just before the epoch loop (lines 169-190): a freshly
initialised net, the optimizer built with `lr=0.001`, and `correct = total =
0`.  `running_loss` has no prior value in the script; the epoch body
overwrites it before any use, so its initial value here is irrelevant (and
proved so). -/
def initState (net0 : LeKanParams) (os0 : List Val) : LoopState :=
  { params := net0, ostate := os0, lr := 1 / 1000,
    correct := 0, total := 0, running_loss := 0 }

/-- Total number of samples in a list of batches. -/
def sampleCount (bs : List Batch) : Nat := (bs.map List.length).sum

/-- Number of correctly classified samples over a list of batches at fixed
parameters (what a no-grad evaluation pass counts). -/
def valCorrect (cfg : Cfg) (p : LeKanParams) (bs : List Batch) : Nat :=
  (bs.map (countCorrect cfg p)).sum

/-- Count of `optStep` events in a trace. -/
def countOpt : List Event → Nat
  | [] => 0
  | Event.optStep :: es => countOpt es + 1
  | _ :: es => countOpt es

/-- Count of `schedStep` events in a trace. -/
def countSched : List Event → Nat
  | [] => 0
  | Event.schedStep :: es => countSched es + 1
  | _ :: es => countSched es

/-- All accuracy values a run reports: the running accuracy of each
progress-bar display and each printed test accuracy, in order. -/
def dispAccs : List Event → List Val
  | [] => []
  | Event.display _ a :: es => a :: dispAccs es
  | Event.printTestAcc a :: es => a :: dispAccs es
  | _ :: es => dispAccs es

/-- All running-average-loss values shown on the progress bar, in order. -/
def dispLosses : List Event → List Val
  | [] => []
  | Event.display l _ :: es => l :: dispLosses es
  | _ :: es => dispLosses es

/-- Decidable check that every reported accuracy of a trace lies in [0, 1]. -/
def accsIn01 (evs : List Event) : Bool :=
  (dispAccs evs).all (fun a => decide (0 ≤ a ∧ a ≤ 1))

/-- Decidable check that every displayed running average loss is
non-negative. -/
def lossesNonneg (evs : List Event) : Bool :=
  (dispLosses evs).all (fun l => decide (0 ≤ l))

/-! ### The post-training evaluation section

After training, the script saves the state dict, reloads it into a fresh
`LeKan`, moves it to CUDA and runs two further no-grad loops over the test
set: a whole-dataset accuracy count (lines 298-311) and a per-class count
(lines 322-335). -/

/-- The state the post-training evaluation loops touch: the reloaded net and
the counters of the whole-dataset loop. -/
structure PostState where
  params : LeKanParams
  correct : Nat
  total : Nat
deriving DecidableEq

/-- The whole-dataset no-grad test loop (lines 298-309): accumulate `total`
and `correct` over the test batches; the net is only read. -/
def finalTestLoop (cfg : Cfg) : PostState → List Batch → PostState
  | ps, [] => ps
  | ps, b :: bs =>
    finalTestLoop cfg
      { ps with total := ps.total + b.length,
                correct := ps.correct + countCorrect cfg ps.params b } bs

/-- Per-class prediction tallies of the second post-training loop: for each
of the 10 classes, the number of correct predictions and the number of
samples with that label. -/
structure ClassCounts where
  params : LeKanParams
  correct_pred : Nat → Nat
  total_pred : Nat → Nat

/-- One batch of the per-class loop (lines 332-335): for every
(label, prediction) pair, bump `correct_pred[label]` when they agree and
always bump `total_pred[label]`. -/
def perClassBatch (cfg : Cfg) (cc : ClassCounts) : Batch → ClassCounts
  | [] => cc
  | s :: ss =>
    let lbl := s.2
    let hit := argmax (cfg.forward cc.params s.1) == lbl
    perClassBatch cfg
      { cc with
        correct_pred := fun c =>
          if c = lbl ∧ hit then cc.correct_pred c + 1 else cc.correct_pred c
        total_pred := fun c =>
          if c = lbl then cc.total_pred c + 1 else cc.total_pred c } ss

/-- The per-class no-grad loop over the whole test set (lines 326-335). -/
def perClassLoop (cfg : Cfg) : ClassCounts → List Batch → ClassCounts
  | cc, [] => cc
  | cc, b :: bs => perClassLoop cfg (perClassBatch cfg cc b) bs

/-! ### Error propagation

`main` installs no `try`/`except`: the pipeline is a plain sequence of
library calls, so the first exception any of them raises propagates out of
`main` unchanged.  We model the fallible library calls in the `Except` monad;
the environment records, for each call site, whether the library raises (and
which error), plus whether CUDA is available. -/

/-- Errors a library call may raise. -/
inductive Err
  | datasetMissing (which : String)
  | shapeMismatch
  | saveFailed
  | displayFailed
  | loadFailed
  | noCuda
deriving DecidableEq

/-- The device `torch.device` returns. -/
inductive Device
  | cuda (idx : Nat)
  | cpu
deriving DecidableEq

/-- The outside world as `main` sees it: CUDA availability and, for each
fallible library call in program order, the error it raises, if any. -/
structure Env where
  cudaAvailable : Bool
  trainLoadErr : Option Err
  testLoadErr : Option Err
  batchOpErr : Option Err
  saveErr : Option Err
  displayErr : Option Err
  loadErr : Option Err

/-- Raise the recorded error of a call site, when there is one. -/
def throwIfSome : Option Err → Except Err Unit
  | none => Except.ok ()
  | some e => Except.error e

/-- Line 169: `torch.device('cuda:0' if torch.cuda.is_available() else
'cpu')` — device selection with a CPU fallback, which never fails. -/
def selectDevice (env : Env) : Device :=
  if env.cudaAvailable then Device.cuda 0 else Device.cpu

/-- Line 277: `net.cuda()` — unconditional, raises when no CUDA device is
available. -/
def netCuda (env : Env) : Except Err Unit :=
  if env.cudaAvailable then Except.ok () else Except.error Err.noCuda

/-- The whole of `main` at the granularity of its fallible library calls, in
program order: load the train set, load the test set, select the device
(CPU fallback, infallible), train for 10 epochs (the first in-loop library
failure, e.g. a shape mismatch, surfaces as `batchOpErr`), save the state
dict, show a test image, reload the checkpoint into a fresh `LeKan`, move it
to CUDA unconditionally, and run the final no-grad evaluation loops.  There
is no handler anywhere: the first error aborts the run. -/
def mainExc (cfg : Cfg) (env : Env) (tb vb : List Batch)
    (net0 fresh0 : LeKanParams) (os0 : List Val) :
    Except Err (LoopState × PostState) := do
  throwIfSome env.trainLoadErr
  throwIfSome env.testLoadErr
  let _device := selectDevice env
  throwIfSome env.batchOpErr
  let res := runEpochs cfg tb vb (initState net0 os0) 10
  throwIfSome env.saveErr
  let ckpt := state_dict res.1.params
  throwIfSome env.displayErr
  throwIfSome env.loadErr
  let net2 := load_state_dict fresh0 ckpt
  _ ← netCuda env
  let fin := finalTestLoop cfg { params := net2, correct := 0, total := 0 } vb
  let _ := perClassLoop cfg
    { params := net2, correct_pred := fun _ => 0, total_pred := fun _ => 0 } vb
  pure (res.1, fin)

/-- The results of the fallible library calls of `main`, in program order
(`none` = the call succeeds). -/
def libCalls (env : Env) : List (Option Err) :=
  [env.trainLoadErr, env.testLoadErr, env.batchOpErr, env.saveErr,
   env.displayErr, env.loadErr,
   if env.cudaAvailable then none else some Err.noCuda]

/-- The first error in a sequence of call results. -/
def firstErr : List (Option Err) → Option Err
  | [] => none
  | some e :: _ => some e
  | none :: rest => firstErr rest

/-! ### Concrete instances used to exercise the definitions

A tiny concrete configuration and dataset: the model always outputs logits
`[1, 0]`, the criterion is constantly 1, gradients and optimizer steps leave
the parameters unchanged, and both loaders yield one single-sample batch. -/

/-- A concrete configuration: constant forward pass and criterion, inert
gradient and optimizer. -/
def cfgC : Cfg :=
  { forward := fun _ _ => [1, 0]
    criterion := fun _ _ => 1
    grad := fun p _ => p
    optStep := fun _ _ p o => (p, o) }

/-- A concrete parameter assignment (all tensors empty). -/
def paramsC : LeKanParams := ⟨[], [], [], [], []⟩

/-- A second concrete parameter assignment, used as the fresh reinitialised
net of the reload section. -/
def paramsD : LeKanParams := ⟨[1], [2], [3], [4], [5]⟩

/-- A concrete one-batch training set; the single sample has label 0, which
the constant forward pass classifies correctly. -/
def tbC : List Batch := [[(([] : Input), 0)]]

/-- A concrete one-batch test set. -/
def vbC : List Batch := [[(([] : Input), 0)]]

/-- An environment with CUDA available and every library call succeeding. -/
def envOk : Env :=
  { cudaAvailable := true, trainLoadErr := none, testLoadErr := none,
    batchOpErr := none, saveErr := none, displayErr := none, loadErr := none }

/-- An environment in which `torch.load` raises and everything else
succeeds. -/
def envLoadFail : Env := { envOk with loadErr := some Err.loadFailed }

/-- An environment with no CUDA device and every library call succeeding. -/
def envNoCuda : Env := { envOk with cudaAvailable := false }

end LeKanCifar

namespace LeKanCifar

/-! ## Helper lemmas -/

lemma countCorrect_le_length (cfg : Cfg) (p : LeKanParams) (b : Batch) :
    countCorrect cfg p b ≤ b.length :=
  List.length_filter_le _ _

lemma dispAccs_append (xs ys : List Event) :
    dispAccs (xs ++ ys) = dispAccs xs ++ dispAccs ys := by
  induction xs with
  | nil => rfl
  | cons e es ih => cases e <;> simp [dispAccs, ih]

lemma dispLosses_append (xs ys : List Event) :
    dispLosses (xs ++ ys) = dispLosses xs ++ dispLosses ys := by
  induction xs with
  | nil => rfl
  | cons e es ih => cases e <;> simp [dispLosses, ih]

lemma countOpt_append (xs ys : List Event) :
    countOpt (xs ++ ys) = countOpt xs + countOpt ys := by
  induction xs with
  | nil => simp [countOpt]
  | cons e es ih => cases e <;> simp [countOpt, ih, Nat.add_right_comm]

lemma countSched_append (xs ys : List Event) :
    countSched (xs ++ ys) = countSched xs + countSched ys := by
  induction xs with
  | nil => simp [countSched]
  | cons e es ih => cases e <;> simp [countSched, ih, Nat.add_right_comm]

lemma countSched_replicate_evalForward (n : Nat) :
    countSched (List.replicate n Event.evalForward) = 0 := by
  induction n with
  | zero => rfl
  | succ n ih => simp [List.replicate_succ, countSched, ih]

lemma evalBatches_eq (cfg : Cfg) (p : LeKanParams) (vb : List Batch) :
    ∀ c t, evalBatches cfg p c t vb =
      ((c + valCorrect cfg p vb, t + sampleCount vb),
       List.replicate vb.length Event.evalForward) := by
  induction vb with
  | nil => intro c t; simp [evalBatches, valCorrect, sampleCount]
  | cons b bs ih =>
    intro c t
    simp only [evalBatches, ih, valCorrect, sampleCount, List.map_cons,
      List.sum_cons, List.length_cons, List.replicate_succ, Nat.add_assoc]

lemma trainPhase_lr (cfg : Cfg) (bs : List Batch) :
    ∀ i s, (trainPhase cfg i s bs).1.lr = s.lr := by
  induction bs with
  | nil => intro i s; rfl
  | cons b bs ih => intro i s; simp [trainPhase, processBatch, ih]

lemma validationPass_state (cfg : Cfg) (vb : List Batch) (s : LoopState) :
    (validationPass cfg vb s).1 =
      { s with correct := valCorrect cfg s.params vb,
               total := sampleCount vb } := by
  simp [validationPass, evalBatches_eq]

lemma validationPass_trace (cfg : Cfg) (vb : List Batch) (s : LoopState) :
    (validationPass cfg vb s).2 =
      List.replicate vb.length Event.evalForward ++
      [Event.printTestAcc
        ((valCorrect cfg s.params vb : Val) / (sampleCount vb : Val))] := by
  simp [validationPass, evalBatches_eq]

lemma epochStep_lr (cfg : Cfg) (tb vb : List Batch) (s : LoopState) :
    (epochStep cfg tb vb s).1.lr = s.lr * (4 / 5) := by
  simp [epochStep, validationPass_state, trainPhase_lr]

lemma runEpochs_lr (cfg : Cfg) (tb vb : List Batch) (k : Nat) :
    ∀ s, (runEpochs cfg tb vb s k).1.lr = s.lr * (4 / 5) ^ k := by
  induction k with
  | zero => intro s; simp [runEpochs]
  | succ k ih =>
    intro s
    simp only [runEpochs, ih, epochStep_lr]
    ring

lemma countSched_trainPhase (cfg : Cfg) (bs : List Batch) :
    ∀ i s, countSched (trainPhase cfg i s bs).2 = 0 := by
  induction bs with
  | nil => intro i s; rfl
  | cons b bs ih =>
    intro i s
    simp [trainPhase, countSched_append, ih, processBatch, countSched]

lemma load_state_dict_state_dict (fresh p : LeKanParams) :
    load_state_dict fresh (state_dict p) = p :=
  rfl

lemma finalTestLoop_params (cfg : Cfg) (vb : List Batch) :
    ∀ ps, (finalTestLoop cfg ps vb).params = ps.params := by
  induction vb with
  | nil => intro ps; rfl
  | cons b bs ih => intro ps; simp [finalTestLoop, ih]

lemma perClassBatch_params (cfg : Cfg) (b : Batch) :
    ∀ cc, (perClassBatch cfg cc b).params = cc.params := by
  induction b with
  | nil => intro cc; rfl
  | cons sm ss ih => intro cc; simp [perClassBatch, ih]

lemma perClassLoop_params (cfg : Cfg) (vb : List Batch) :
    ∀ cc, (perClassLoop cfg cc vb).params = cc.params := by
  induction vb with
  | nil => intro cc; rfl
  | cons b bs ih => intro cc; simp [perClassLoop, ih, perClassBatch_params]

lemma dispAccs_replicate_evalForward (n : Nat) :
    dispAccs (List.replicate n Event.evalForward) = [] := by
  induction n with
  | zero => rfl
  | succ n ih => simp [List.replicate_succ, dispAccs, ih]

lemma dispLosses_replicate_evalForward (n : Nat) :
    dispLosses (List.replicate n Event.evalForward) = [] := by
  induction n with
  | zero => rfl
  | succ n ih => simp [List.replicate_succ, dispLosses, ih]

lemma accsIn01_append (xs ys : List Event) :
    accsIn01 (xs ++ ys) = (accsIn01 xs && accsIn01 ys) := by
  simp [accsIn01, dispAccs_append, List.all_append]

lemma lossesNonneg_append (xs ys : List Event) :
    lossesNonneg (xs ++ ys) = (lossesNonneg xs && lossesNonneg ys) := by
  simp [lossesNonneg, dispLosses_append, List.all_append]

lemma ratio_mem_unit (c t : Nat) (hct : c ≤ t) (ht : 0 < t) :
    0 ≤ ((c : Val) / (t : Val)) ∧ ((c : Val) / (t : Val)) ≤ 1 := by
  constructor
  · exact div_nonneg (Nat.cast_nonneg c) (Nat.cast_nonneg t)
  · rw [div_le_one (by exact_mod_cast ht)]
    exact_mod_cast hct

lemma trainPhase_accs (cfg : Cfg) (bs : List Batch) :
    ∀ i s, s.correct ≤ s.total → (∀ b ∈ bs, b ≠ []) →
      accsIn01 (trainPhase cfg i s bs).2 = true
      ∧ (trainPhase cfg i s bs).1.correct ≤ (trainPhase cfg i s bs).1.total := by
  induction bs with
  | nil => intro i s hs hb; exact ⟨rfl, hs⟩
  | cons b bs ih =>
    intro i s hs hb
    have hct : s.correct + countCorrect cfg s.params b ≤ s.total + b.length :=
      Nat.add_le_add hs (countCorrect_le_length cfg s.params b)
    have ht : 0 < s.total + b.length := by
      have hlen : 0 < b.length :=
        List.length_pos.mpr (hb b (List.mem_cons_self b bs))
      omega
    have hstep : (processBatch cfg i s b).1.correct ≤
        (processBatch cfg i s b).1.total := hct
    obtain ⟨ih1, ih2⟩ := ih (i + 1) (processBatch cfg i s b).1 hstep
      (fun b2 hb2 => hb b2 (List.mem_cons_of_mem _ hb2))
    refine ⟨?_, by simpa [trainPhase] using ih2⟩
    have hbatch : accsIn01 (processBatch cfg i s b).2 = true := by
      simp only [processBatch, accsIn01, dispAccs, List.all_cons, List.all_nil,
        Bool.and_true, decide_eq_true_eq]
      exact ratio_mem_unit _ _ hct ht
    calc accsIn01 (trainPhase cfg i s (b :: bs)).2
        = (accsIn01 (processBatch cfg i s b).2 &&
           accsIn01 (trainPhase cfg (i + 1) (processBatch cfg i s b).1 bs).2) := by
          simp [trainPhase, accsIn01_append]
      _ = true := by rw [hbatch, ih1, Bool.and_true]

lemma valCorrect_le_sampleCount (cfg : Cfg) (p : LeKanParams) :
    ∀ bs, valCorrect cfg p bs ≤ sampleCount bs := by
  intro bs
  induction bs with
  | nil => simp [valCorrect, sampleCount]
  | cons b bs ih =>
    simp only [valCorrect, sampleCount, List.map_cons, List.sum_cons] at ih ⊢
    exact Nat.add_le_add (countCorrect_le_length cfg p b) ih

lemma sampleCount_pos (vb : List Batch) (h1 : vb ≠ [])
    (h2 : ∀ b ∈ vb, b ≠ []) : 0 < sampleCount vb := by
  cases vb with
  | nil => exact absurd rfl h1
  | cons b bs =>
    have hlen : 0 < b.length :=
      List.length_pos.mpr (h2 b (List.mem_cons_self b bs))
    simp only [sampleCount, List.map_cons, List.sum_cons]
    omega

lemma epochStep_accs (cfg : Cfg) (tb vb : List Batch) (s : LoopState)
    (hs : s.correct ≤ s.total) (htb : ∀ b ∈ tb, b ≠ [])
    (hvb1 : vb ≠ []) (hvb2 : ∀ b ∈ vb, b ≠ []) :
    accsIn01 (epochStep cfg tb vb s).2 = true
    ∧ (epochStep cfg tb vb s).1.correct ≤ (epochStep cfg tb vb s).1.total := by
  obtain ⟨htr, hinv⟩ := trainPhase_accs cfg tb 0 { s with running_loss := 0 }
    hs htb
  have hval := ratio_mem_unit
    (valCorrect cfg (trainPhase cfg 0 { s with running_loss := 0 } tb).1.params vb)
    (sampleCount vb)
    (valCorrect_le_sampleCount cfg _ vb) (sampleCount_pos vb hvb1 hvb2)
  constructor
  · simp only [epochStep, accsIn01_append, validationPass_trace, htr,
      Bool.true_and]
    simp only [accsIn01, dispAccs_append, dispAccs_replicate_evalForward,
      dispAccs, List.nil_append, List.all_append, List.all_cons, List.all_nil,
      Bool.and_true, Bool.true_and, decide_eq_true_eq]
    exact hval
  · simp [epochStep, validationPass_state, valCorrect_le_sampleCount]

lemma runEpochs_accs (cfg : Cfg) (tb vb : List Batch) (k : Nat)
    (htb : ∀ b ∈ tb, b ≠ []) (hvb1 : vb ≠ []) (hvb2 : ∀ b ∈ vb, b ≠ []) :
    ∀ s, s.correct ≤ s.total →
      accsIn01 (runEpochs cfg tb vb s k).2 = true
      ∧ (runEpochs cfg tb vb s k).1.correct ≤
          (runEpochs cfg tb vb s k).1.total := by
  induction k with
  | zero => intro s hs; exact ⟨rfl, hs⟩
  | succ k ih =>
    intro s hs
    obtain ⟨h1, h2⟩ := epochStep_accs cfg tb vb s hs htb hvb1 hvb2
    obtain ⟨h3, h4⟩ := ih (epochStep cfg tb vb s).1 h2
    refine ⟨?_, by simpa [runEpochs] using h4⟩
    calc accsIn01 (runEpochs cfg tb vb s (k + 1)).2
        = (accsIn01 (epochStep cfg tb vb s).2 &&
           accsIn01 (runEpochs cfg tb vb (epochStep cfg tb vb s).1 k).2) := by
          simp [runEpochs, accsIn01_append]
      _ = true := by rw [h1, h3, Bool.and_true]

lemma batchLoss_nonneg (cfg : Cfg)
    (h : ∀ o l, 0 ≤ cfg.criterion o l) (p : LeKanParams) (b : Batch) :
    0 ≤ batchLoss cfg p b := by
  simpa [batchLoss] using h (b.map (fun sm => cfg.forward p sm.1))
    (b.map (fun sm => sm.2))

lemma trainPhase_losses (cfg : Cfg) (h : ∀ o l, 0 ≤ cfg.criterion o l)
    (bs : List Batch) :
    ∀ i s, 0 ≤ s.running_loss →
      lossesNonneg (trainPhase cfg i s bs).2 = true
      ∧ 0 ≤ (trainPhase cfg i s bs).1.running_loss := by
  induction bs with
  | nil => intro i s hrl; exact ⟨rfl, hrl⟩
  | cons b bs ih =>
    intro i s hrl
    have hrl2 : 0 ≤ s.running_loss + batchLoss cfg s.params b :=
      add_nonneg hrl (batchLoss_nonneg cfg h s.params b)
    have hstep : 0 ≤ (processBatch cfg i s b).1.running_loss := hrl2
    obtain ⟨ih1, ih2⟩ := ih (i + 1) (processBatch cfg i s b).1 hstep
    refine ⟨?_, by simpa [trainPhase] using ih2⟩
    have hbatch : lossesNonneg (processBatch cfg i s b).2 = true := by
      simp only [processBatch, lossesNonneg, dispLosses, List.all_cons,
        List.all_nil, Bool.and_true, decide_eq_true_eq]
      exact div_nonneg hrl2 (by positivity)
    calc lossesNonneg (trainPhase cfg i s (b :: bs)).2
        = (lossesNonneg (processBatch cfg i s b).2 &&
           lossesNonneg (trainPhase cfg (i + 1) (processBatch cfg i s b).1 bs).2) := by
          simp [trainPhase, lossesNonneg_append]
      _ = true := by rw [hbatch, ih1, Bool.and_true]

lemma epochStep_losses (cfg : Cfg) (h : ∀ o l, 0 ≤ cfg.criterion o l)
    (tb vb : List Batch) (s : LoopState) :
    lossesNonneg (epochStep cfg tb vb s).2 = true := by
  obtain ⟨htr, _⟩ := trainPhase_losses cfg h tb 0 { s with running_loss := 0 }
    le_rfl
  simp only [epochStep, lossesNonneg_append, validationPass_trace, htr,
    Bool.true_and]
  simp [lossesNonneg, dispLosses_append, dispLosses_replicate_evalForward,
    dispLosses]

lemma runEpochs_losses (cfg : Cfg) (h : ∀ o l, 0 ≤ cfg.criterion o l)
    (tb vb : List Batch) (k : Nat) :
    ∀ s, lossesNonneg (runEpochs cfg tb vb s k).2 = true := by
  induction k with
  | zero => intro s; rfl
  | succ k ih =>
    intro s
    calc lossesNonneg (runEpochs cfg tb vb s (k + 1)).2
        = (lossesNonneg (epochStep cfg tb vb s).2 &&
           lossesNonneg (runEpochs cfg tb vb (epochStep cfg tb vb s).1 k).2) := by
          simp [runEpochs, lossesNonneg_append]
      _ = true := by
          rw [epochStep_losses cfg h tb vb s, ih, Bool.and_true]

/-! ## Claims -/

/-- C1: for every batch of every training epoch, the loop performs, in this
order, gradient zeroing, the forward pass, the loss computation, backward,
and exactly one optimizer step, and then displays the running average loss
`running_loss / (i + 1)` together with the running accuracy
`correct / total`; over a whole epoch the number of optimizer steps equals
the number of batches. -/
theorem claim_C1_batch_order (cfg : Cfg) (i : Nat) (s : LoopState) (b : Batch) :
    (processBatch cfg i s b).2 =
      [Event.zeroGrad, Event.forward, Event.lossComp, Event.backward,
       Event.optStep,
       Event.display
         ((s.running_loss + batchLoss cfg s.params b) / ((i : Val) + 1))
         (((s.correct + countCorrect cfg s.params b : Nat) : Val) /
          ((s.total + b.length : Nat) : Val))]
    ∧ ∀ j t bs, countOpt (trainPhase cfg j t bs).2 = bs.length := by
  constructor
  · rfl
  · intro j t bs
    induction bs generalizing j t with
    | nil => rfl
    | cons b2 bs ih =>
      simp [trainPhase, countOpt_append, ih, processBatch, countOpt]

/-- C2 (counterexample): on a one-batch train set and a one-sample test set,
the state entering the second epoch's training batches has `total = 1` (the
test-set size left behind by the first epoch's validation), not 0 — the
correct-count and total-count are not reset at the start of every epoch. -/
theorem claim_C2_counterexample :
    (runEpochs cfgC tbC vbC (initState paramsC []) 1).1.total = 1 ∧
    (runEpochs cfgC tbC vbC (initState paramsC []) 1).1.total ≠ 0 := by
  decide

/-- C2 (amended): the loss accumulator is reset at the start of every epoch
(the epoch body is insensitive to the incoming `running_loss`), but the
correct-count and total-count are reset only at the start of each epoch's
validation pass, so the counters an epoch leaves for the next epoch's
training batches are the validation counts: `total` ends every epoch at the
test-set size and `correct` at the validation correct-count. -/
theorem claim_C2_reset_amended (cfg : Cfg) (tb vb : List Batch)
    (s : LoopState) (r : Val) :
    epochStep cfg tb vb { s with running_loss := r } = epochStep cfg tb vb s
    ∧ (epochStep cfg tb vb s).1.total = sampleCount vb
    ∧ (epochStep cfg tb vb s).1.correct =
        valCorrect cfg
          (trainPhase cfg 0 { s with running_loss := 0 } tb).1.params vb := by
  refine ⟨rfl, ?_, ?_⟩ <;> simp [epochStep, validationPass_state]

/-- C3: the loss used for backward and accumulated into the running average
is exactly the cross-entropy of the outputs against the labels: the
`0 * l1_reg` term contributes nothing. -/
theorem claim_C3_loss_is_cross_entropy (cfg : Cfg) (i : Nat) (s : LoopState)
    (b : Batch) :
    batchLoss cfg s.params b =
      cfg.criterion (b.map (fun sm => cfg.forward s.params sm.1))
        (b.map (fun sm => sm.2))
    ∧ (processBatch cfg i s b).1.running_loss =
        s.running_loss +
          cfg.criterion (b.map (fun sm => cfg.forward s.params sm.1))
            (b.map (fun sm => sm.2)) := by
  constructor
  · simp [batchLoss]
  · simp [processBatch, batchLoss]

/-- C4: starting from the optimizer's initial learning rate 0.001, each epoch
ends with exactly one `scheduler.step()`, placed after a validation pass that
performs only no-grad forward passes and one test-accuracy report; hence
after k completed epochs the learning rate is 0.001 * 0.8 ^ k. -/
theorem claim_C4_lr_decay_and_validation (cfg : Cfg) (tb vb : List Batch)
    (n0 : LeKanParams) (o0 : List Val) (k : Nat) :
    (runEpochs cfg tb vb (initState n0 o0) k).1.lr =
      (1 / 1000) * (4 / 5) ^ k
    ∧ ∀ s, countSched (epochStep cfg tb vb s).2 = 1
        ∧ (epochStep cfg tb vb s).2 =
            (trainPhase cfg 0 { s with running_loss := 0 } tb).2 ++
            (List.replicate vb.length Event.evalForward ++
             [Event.printTestAcc
                ((valCorrect cfg
                    (trainPhase cfg 0 { s with running_loss := 0 } tb).1.params
                    vb : Val) / (sampleCount vb : Val)),
              Event.schedStep]) := by
  refine ⟨by simp [runEpochs_lr, initState], fun s => ⟨?_, ?_⟩⟩
  · simp [epochStep, countSched_append, countSched_trainPhase,
      validationPass_trace, countSched_replicate_evalForward, countSched]
  · simp [epochStep, validationPass_trace]

/-- C5: saving the trained model's state dict and loading it back into a
freshly constructed `LeKan` is a round trip: the reloaded parameters equal
the saved ones, so the forward pass of the reloaded model agrees with the
pre-save model on every input. -/
theorem claim_C5_save_reload_roundtrip (cfg : Cfg) (fresh p : LeKanParams)
    (x : Input) :
    load_state_dict fresh (state_dict p) = p
    ∧ cfg.forward (load_state_dict fresh (state_dict p)) x =
        cfg.forward p x := by
  have h := load_state_dict_state_dict fresh p
  exact ⟨h, by rw [h]⟩

/-- C6: every reported accuracy of a run — each per-batch running training
accuracy and each per-epoch test accuracy — lies in [0, 1], given that every
batch is non-empty (so at least one sample has been counted at every report):
the correct-count never exceeds the total-count and both are non-negative. -/
theorem claim_C6_accuracy_in_unit_interval (cfg : Cfg) (tb vb : List Batch)
    (n0 : LeKanParams) (o0 : List Val) (k : Nat)
    (htb : ∀ b ∈ tb, b ≠ []) (hvb1 : vb ≠ []) (hvb2 : ∀ b ∈ vb, b ≠ []) :
    accsIn01 (runEpochs cfg tb vb (initState n0 o0) k).2 = true :=
  (runEpochs_accs cfg tb vb k htb hvb1 hvb2 (initState n0 o0)
    (Nat.le_refl 0)).1

/-- Witness for C6 at the concrete configuration and datasets: a two-epoch
run reports only accuracies in [0, 1]. -/
theorem claim_C6_witness :
    accsIn01 (runEpochs cfgC tbC vbC (initState paramsC []) 2).2 = true :=
  claim_C6_accuracy_in_unit_interval cfgC tbC vbC paramsC [] 2
    (by decide) (by decide) (by decide)

/-- C8: every running average loss shown on the progress bar —
`running_loss / (i + 1)` — is non-negative, because each per-batch loss is a
cross-entropy value (hypothesis: the criterion is non-negative) and the
accumulator starts every epoch at zero. -/
theorem claim_C8_running_avg_loss_nonneg (cfg : Cfg) (tb vb : List Batch)
    (s : LoopState) (k : Nat) (h : ∀ o l, 0 ≤ cfg.criterion o l) :
    lossesNonneg (runEpochs cfg tb vb s k).2 = true :=
  runEpochs_losses cfg h tb vb k s

/-- Witness for C8: with the constant criterion 1 (which is non-negative),
the two-epoch run displays only non-negative running average losses. -/
theorem claim_C8_witness :
    lossesNonneg (runEpochs cfgC tbC vbC (initState paramsC []) 2).2 = true :=
  claim_C8_running_avg_loss_nonneg cfgC tbC vbC (initState paramsC []) 2
    (fun _ _ => zero_le_one)

/-- C9: every evaluation pass — the per-epoch validation loop, the
whole-dataset post-training test loop and the per-class loop — only reads the
model: the parameter tensors after the pass equal those before. -/
theorem claim_C9_eval_preserves_params (cfg : Cfg) (vb : List Batch)
    (s : LoopState) (ps : PostState) (cc : ClassCounts) :
    (validationPass cfg vb s).1.params = s.params
    ∧ (finalTestLoop cfg ps vb).params = ps.params
    ∧ (perClassLoop cfg cc vb).params = cc.params :=
  ⟨by simp [validationPass_state], finalTestLoop_params cfg vb ps,
   perClassLoop_params cfg vb cc⟩

lemma mainExc_firstErr (cfg : Cfg) (tb vb : List Batch)
    (n0 f0 : LeKanParams) (o0 : List Val) (cuda : Bool)
    (t1 t2 t3 t4 t5 t6 : Option Err) :
    mainExc cfg ⟨cuda, t1, t2, t3, t4, t5, t6⟩ tb vb n0 f0 o0 =
      match firstErr (libCalls ⟨cuda, t1, t2, t3, t4, t5, t6⟩) with
      | some e => Except.error e
      | none =>
        Except.ok ((runEpochs cfg tb vb (initState n0 o0) 10).1,
          finalTestLoop cfg
            { params := load_state_dict f0
                (state_dict (runEpochs cfg tb vb (initState n0 o0) 10).1.params),
              correct := 0, total := 0 } vb) := by
  cases t1 <;> cases t2 <;> cases t3 <;> cases t4 <;> cases t5 <;> cases t6 <;>
    cases cuda <;> rfl

/-- C7: `main` installs no exception handler: whichever library call is the
first to raise, its error propagates out of `main` untranslated, nothing
after it runs, and there is no retry; when every call succeeds, `main`
returns normally. -/
theorem claim_C7_unhandled_errors (cfg : Cfg) (env : Env) (tb vb : List Batch)
    (n0 f0 : LeKanParams) (o0 : List Val) :
    (∀ e, firstErr (libCalls env) = some e →
      mainExc cfg env tb vb n0 f0 o0 = Except.error e)
    ∧ (firstErr (libCalls env) = none →
        ∃ v, mainExc cfg env tb vb n0 f0 o0 = Except.ok v) := by
  obtain ⟨cuda, t1, t2, t3, t4, t5, t6⟩ := env
  constructor
  · intro e he
    rw [mainExc_firstErr, he]
  · intro h
    rw [mainExc_firstErr, h]
    exact ⟨_, rfl⟩

/-- Witness for C7: when `torch.load` raises and every other call succeeds,
the run ends with exactly that error. -/
theorem claim_C7_witness :
    firstErr (libCalls envLoadFail) = some Err.loadFailed
    ∧ mainExc cfgC envLoadFail tbC vbC paramsC paramsD [] =
        Except.error Err.loadFailed :=
  ⟨rfl,
   (claim_C7_unhandled_errors cfgC envLoadFail tbC vbC paramsC paramsD []).1
     Err.loadFailed rfl⟩

/-- C10: training selects its device with a CPU fallback (`selectDevice`
returns the CPU when CUDA is unavailable), but the post-reload section calls
`net.cuda()` unconditionally: without CUDA the script always faults with the
CUDA error after reloading the checkpoint, even when every library call
succeeds, and with CUDA available the reload-and-evaluate section completes
without error. -/
theorem claim_C10_post_reload_requires_cuda (cfg : Cfg) (tb vb : List Batch)
    (n0 f0 : LeKanParams) (o0 : List Val) (env : Env)
    (h1 : env.trainLoadErr = none) (h2 : env.testLoadErr = none)
    (h3 : env.batchOpErr = none) (h4 : env.saveErr = none)
    (h5 : env.displayErr = none) (h6 : env.loadErr = none) :
    (env.cudaAvailable = false →
      selectDevice env = Device.cpu
      ∧ mainExc cfg env tb vb n0 f0 o0 = Except.error Err.noCuda)
    ∧ (env.cudaAvailable = true →
        ∃ v, mainExc cfg env tb vb n0 f0 o0 = Except.ok v) := by
  obtain ⟨cuda, t1, t2, t3, t4, t5, t6⟩ := env
  have e1 : t1 = none := h1
  have e2 : t2 = none := h2
  have e3 : t3 = none := h3
  have e4 : t4 = none := h4
  have e5 : t5 = none := h5
  have e6 : t6 = none := h6
  subst e1 e2 e3 e4 e5 e6
  constructor
  · intro hc
    have hc2 : cuda = false := hc
    subst hc2
    exact ⟨rfl, rfl⟩
  · intro hc
    have hc2 : cuda = true := hc
    subst hc2
    exact ⟨_, rfl⟩

/-- Witness for C10: with no CUDA device and every library call succeeding,
device selection falls back to the CPU and the run faults with the CUDA
error raised by the post-reload `net.cuda()`. -/
theorem claim_C10_witness :
    selectDevice envNoCuda = Device.cpu
    ∧ mainExc cfgC envNoCuda tbC vbC paramsC paramsD [] =
        Except.error Err.noCuda :=
  (claim_C10_post_reload_requires_cuda cfgC tbC vbC paramsC paramsD []
    envNoCuda rfl rfl rfl rfl rfl rfl).1 rfl

end LeKanCifar
